import Mathlib

/-!
Verification of the asynchronous job-slot engine and repository query
algorithms of the `asyncgit` crate (status enumeration, commit-file diffs,
two-commit comparison, fast-forward merge, discard-to-HEAD), as a shallow
embedding in Lean.

Sources embedded:
  * `asyncgit/src/sync/status.rs` (`StatusItemType`, `get_status`,
    `discard_status`)
  * `asyncgit/src/sync/commit_files.rs` (`get_commit_files`,
    `get_compare_commits_diff`, `get_commit_diff`)
  * `asyncgit/src/sync/branch/merge.rs` (`branch_merge_upstream_fastforward`)
  * `asyncgit/src/commit_files.rs` (`AsyncCommitFiles`: `fetch`,
    `fetch_helper`, `current`, `is_pending`, the worker closure)
-/

namespace Gitui

/-! ## Backend status flags (`git2::Status`) and `StatusItemType`

`git2::Status` is a bitflags value; we model the individual flags the code
can observe as one `Bool` field each. -/

/-- The status flags libgit2 reports for one status entry
(`git2::Status` bitflags, one `Bool` per flag queried by the code). -/
structure GitStatus where
  indexNew : Bool
  indexModified : Bool
  indexDeleted : Bool
  indexRenamed : Bool
  indexTypechange : Bool
  wtNew : Bool
  wtModified : Bool
  wtDeleted : Bool
  wtRenamed : Bool
  wtTypechange : Bool
  conflicted : Bool
  deriving DecidableEq, Repr

/-- `StatusItemType` from `asyncgit/src/sync/status.rs`. -/
inductive StatusItemType where
  | New
  | Modified
  | Deleted
  | Renamed
  | Typechange
  | Conflicted
  deriving DecidableEq, Repr

/-- Embedding of `impl From<Status> for StatusItemType`
(`asyncgit/src/sync/status.rs`): the if/else-if chain over the backend
flags, `Modified` as the final else. -/
def StatusItemType.fromStatus (s : GitStatus) : StatusItemType :=
  if s.indexNew || s.wtNew then .New
  else if s.indexDeleted || s.wtDeleted then .Deleted
  else if s.indexRenamed || s.wtRenamed then .Renamed
  else if s.indexTypechange || s.wtTypechange then .Typechange
  else if s.conflicted then .Conflicted
  else .Modified

/-- The spec's wording of the same derivation: the fixed precedence list
New > Deleted > Renamed > Typechange > Conflicted, each checking both the
index and the working-tree variant of the flag; the FIRST matching flag
wins and `Modified` is the fallback when no flag matches. -/
def statusPrecedenceList (s : GitStatus) : List (Bool × StatusItemType) :=
  [(s.indexNew || s.wtNew, .New),
   (s.indexDeleted || s.wtDeleted, .Deleted),
   (s.indexRenamed || s.wtRenamed, .Renamed),
   (s.indexTypechange || s.wtTypechange, .Typechange),
   (s.conflicted, .Conflicted)]

/-- First-matching-flag derivation, following the spec's words. -/
def statusKindSpec (s : GitStatus) : StatusItemType :=
  (((statusPrecedenceList s).find? (fun p => p.1)).map (fun p => p.2)).getD
    .Modified

/-! ## Repository content model and backend status enumeration

The libgit2 backend is the spec's "opaque, already-available query surface".
We model repository content as finite maps from paths to blob ids and model
the backend's status computation (`repo.statuses(...)`) from that content:
an entry's index flags compare HEAD against the index, its working-tree
flags compare the index against the working tree. Rename detection and
untracked-directory recursion are not modelled (the corresponding flags are
simply never set by the modelled backend; `GitStatus` still carries them,
so the flag-to-kind derivation is verified over all combinations). -/

/-- A tree/index/worktree: finite map from path to blob id. -/
abbrev Tree := List (String × Nat)

/-- Lookup of a path's blob in a tree. -/
def Tree.lookup (t : Tree) (p : String) : Option Nat :=
  (List.find? (fun e => e.1 == p) t).map (fun e => e.2)

/-- Repository state as seen through the backend query surface. -/
structure GitRepo where
  isBare : Bool
  isWorktree : Bool
  /-- `untracked_files_config_repo`: the repository's own configuration for
  including untracked files, used when the caller passes no policy. -/
  configIncludeUntracked : Bool
  headTree : Tree
  index : Tree
  worktree : Tree
  deriving Repr

/-- All paths mentioned anywhere in the repository state. -/
def GitRepo.allPaths (r : GitRepo) : List String :=
  ((r.headTree ++ r.index ++ r.worktree).map (fun e => e.1)).dedup

/-- Backend flag computation for one path: index flags from HEAD vs index,
working-tree flags from index vs worktree. -/
def entryFlags (r : GitRepo) (p : String) : GitStatus :=
  let h := r.headTree.lookup p
  let i := r.index.lookup p
  let w := r.worktree.lookup p
  { indexNew := h.isNone && i.isSome
    indexModified := (h.isSome && i.isSome) && h != i
    indexDeleted := h.isSome && i.isNone
    indexRenamed := false
    indexTypechange := false
    wtNew := i.isNone && w.isSome
    wtModified := (i.isSome && w.isSome) && i != w
    wtDeleted := i.isSome && w.isNone
    wtRenamed := false
    wtTypechange := false
    conflicted := false }

/-- Does the entry show a working-tree-side change? -/
def hasWtChange (f : GitStatus) : Bool :=
  f.wtNew || f.wtModified || f.wtDeleted || f.wtRenamed || f.wtTypechange ||
    f.conflicted

/-- Does the entry show an index-side (staged) change? -/
def hasIndexChange (f : GitStatus) : Bool :=
  f.indexNew || f.indexModified || f.indexDeleted || f.indexRenamed ||
    f.indexTypechange || f.conflicted

/-- `StatusType` from `asyncgit/src/sync/status.rs` (maps onto
`git2::StatusShow`: Workdir / Index / IndexAndWorkdir). -/
inductive StatusType where
  | WorkingDir
  | Stage
  | Both
  deriving DecidableEq, Repr

/-- Which entries a given `StatusShow` scope reports. -/
def StatusType.keeps : StatusType → GitStatus → Bool
  | .WorkingDir, f => hasWtChange f
  | .Stage, f => hasIndexChange f
  | .Both, f => hasWtChange f || hasIndexChange f

/-- One raw backend status entry as the code consumes it:
`e.head_to_index()` is `some` when a HEAD-to-index diff exists (its payload
is `new_file().path()`, `none` inside meaning missing or non-UTF-8), and
`e.path()` is `none` when the entry path is not valid UTF-8. -/
structure RawStatusEntry where
  headToIndexNewPath : Option (Option String)
  entryPath : Option String
  status : GitStatus
  deriving Repr

/-- The backend's `repo.statuses(opts)`: one entry per changed path, the
scope filter from `StatusShow`, untracked files (pure `wt_new` entries)
reported only when `includeUntracked` is set. -/
def repoStatuses (r : GitRepo) (t : StatusType) (includeUntracked : Bool) :
    List RawStatusEntry :=
  r.allPaths.filterMap (fun p =>
    let f0 := entryFlags r p
    let f := if includeUntracked then f0 else { f0 with wtNew := false }
    if t.keeps f then
      some { headToIndexNewPath :=
               if hasIndexChange f then some (some p) else none
             entryPath := some p
             status := f }
    else none)

/-- `StatusItem` from `asyncgit/src/sync/status.rs`. -/
structure StatusItem where
  path : String
  status : StatusItemType
  deriving DecidableEq, Repr

/-- The path-extraction step of `get_status`'s loop body: prefer the
HEAD-to-index diff's new-file path, else the entry's own path; a missing
path is a `Generic` error. -/
def statusEntryItem (e : RawStatusEntry) : Except String StatusItem :=
  match e.headToIndexNewPath with
  | some p =>
    match p with
    | some path => .ok ⟨path, StatusItemType.fromStatus e.status⟩
    | none => .error "failed to get path to diff new file."
  | none =>
    match e.entryPath with
    | some path => .ok ⟨path, StatusItemType.fromStatus e.status⟩
    | none => .error "failed to get the path to indexed file."

/-- Embedding of `get_status` (`asyncgit/src/sync/status.rs`): bare
repository without a worktree returns an empty list; otherwise the
untracked policy falls back to the repository configuration, the backend
entries are converted to `StatusItem`s, and the result is sorted by path.
`pathLe` is the platform path-ordering comparison
(`Path::new(a).cmp(Path::new(b))`), supplied by the standard library and
therefore a parameter of the embedding. -/
def get_status (pathLe : String → String → Bool) (r : GitRepo)
    (t : StatusType) (showUntracked : Option Bool) :
    Except String (List StatusItem) :=
  if r.isBare && !r.isWorktree then .ok []
  else
    let includeUntracked := showUntracked.getD r.configIncludeUntracked
    match (repoStatuses r t includeUntracked).mapM statusEntryItem with
    | .error e => .error e
    | .ok items =>
      .ok (items.insertionSort (fun a b => pathLe a.path b.path = true))

/-- `repo.checkout_tree(head) ; repo.reset(head, Hard)`: working tree and
index both become HEAD's tree. -/
def resetHardToHead (r : GitRepo) : GitRepo :=
  { r with worktree := r.headTree, index := r.headTree }

/-- Embedding of `discard_status` (`asyncgit/src/sync/status.rs`): scan
`repo.statuses(None)` (libgit2 default options: index-and-workdir scope,
untracked files included), and for every entry whose working-tree state is
modified or new, reset the whole working tree and index to HEAD; always
returns `true`. -/
def discard_status (r : GitRepo) : GitRepo × Bool :=
  let statuses := repoStatuses r .Both true
  (statuses.foldl
    (fun acc e =>
      if e.status.wtModified || e.status.wtNew then resetHardToHead acc
      else acc)
    r,
   true)

/-! ## Commit objects and tree diffs (`asyncgit/src/sync/commit_files.rs`)

Commit objects, trees and the tree-to-tree diff are part of the opaque
backend (libgit2); we model a commit as its timestamp, tree and parent
list, and `diff_tree_to_tree` as the per-path comparison of two finite
maps (`None` tree = empty tree, as in libgit2). -/

/-- Opaque commit object identifier. -/
abbrev Oid := Nat

/-- A backend commit object: timestamp (`commit.time()`), root tree,
parent ids (`commit.parent_id(i)`), and whether the backend's stash
detection recognizes it. The `isStash` field is *modelled from the spec*:
`is_stash_commit` lives in `asyncgit/src/sync/stash.rs`, which is not part
of the sources here; per the spec it is a tagged classification of commits
with the conventional stash parent shape, so we carry the backend's answer
as a field of the commit object. -/
structure Commit where
  time : Int
  tree : Tree
  parents : List Oid
  isStash : Bool
  deriving Repr

/-- The commit database of a repository (`repo.find_commit`). -/
structure DiffRepo where
  commits : List (Oid × Commit)
  deriving Repr

/-- `repo.find_commit(id)`. -/
def DiffRepo.findCommit (r : DiffRepo) (id : Oid) : Option Commit :=
  (List.find? (fun e => e.1 == id) r.commits).map (fun e => e.2)

/-- Modelled from the spec: `is_stash_commit(repo_path, id)`
(`asyncgit/src/sync/stash.rs`, not among the sources): whether the backend
classifies the commit as a stash commit. -/
def is_stash_commit (r : DiffRepo) (id : Oid) : Bool :=
  ((r.findCommit id).map (fun c => c.isStash)).getD false

/-- `git2::Delta`: the status of one diff delta. -/
inductive Delta where
  | Unmodified
  | Added
  | Deleted
  | Modified
  | Renamed
  | Copied
  | Ignored
  | Untracked
  | Typechange
  | Unreadable
  | Conflicted
  deriving DecidableEq, Repr

/-- Embedding of `impl From<Delta> for StatusItemType`
(`asyncgit/src/sync/status.rs`). -/
def StatusItemType.fromDelta : Delta → StatusItemType
  | .Added => .New
  | .Deleted => .Deleted
  | .Renamed => .Renamed
  | .Typechange => .Typechange
  | _ => .Modified

/-- One delta of a diff as the code consumes it: its status and
`delta.new_file().path()` (`none` = the new side has no path; `some none`
= a path that is not valid UTF-8; `some (some p)` = a UTF-8 path). -/
structure DiffDelta where
  status : Delta
  newFilePath : Option (Option String)
  deriving DecidableEq, Repr

/-- An absent tree handle is the empty tree (libgit2 semantics of passing
`None` to `diff_tree_to_tree`). -/
def treeOrEmpty : Option Tree → Tree
  | some t => t
  | none => []

/-- The backend's `repo.diff_tree_to_tree(old, new, opts)`: one delta per
path whose blob differs between the two trees. The pathspec option
restricts the diff to matching paths (both call sites in
`commit_files.rs` pass `None`). The produced paths are always present and
valid UTF-8 in this model; `DiffDelta` still allows the degenerate cases,
so the path-extraction step is verified over all of them. -/
def diff_tree_to_tree (old new : Option Tree) (pathspec : Option String) :
    List DiffDelta :=
  let o := treeOrEmpty old
  let n := treeOrEmpty new
  (((o ++ n).map (fun e => e.1)).dedup.filter
      (fun p => match pathspec with
        | none => true
        | some ps => p == ps)).filterMap
    (fun p =>
      match o.lookup p, n.lookup p with
      | none, some _ => some ⟨.Added, some (some p)⟩
      | some _, none => some ⟨.Deleted, some (some p)⟩
      | some a, some b =>
        if a == b then none else some ⟨.Modified, some (some p)⟩
      | none, none => none)

/-- `git2::Diff::merge`: the deltas of the second diff are folded into the
first; a path already present keeps its existing delta, new paths are
appended. -/
def diffMerge (a b : List DiffDelta) : List DiffDelta :=
  a ++ b.filter
    (fun d => !(a.any (fun e => e.newFilePath == d.newFilePath)))

/-- Embedding of `get_compare_commits_diff`
(`asyncgit/src/sync/commit_files.rs`): find both commits, swap them when
the first one's timestamp compares greater than the second one's, then
diff the two trees. -/
def get_compare_commits_diff (r : DiffRepo) (ids : Oid × Oid)
    (pathspec : Option String) : Except String (List DiffDelta) :=
  match r.findCommit ids.1, r.findCommit ids.2 with
  | some c0, some c1 =>
    let commits := if compare c0.time c1.time = Ordering.gt then (c1, c0)
      else (c0, c1)
    .ok (diff_tree_to_tree (some commits.1.tree) (some commits.2.tree)
      pathspec)
  | _, _ => .error "commit not found"

/-- Embedding of `get_commit_diff` (`asyncgit/src/sync/commit_files.rs`):
diff the commit against its first parent (`None`, i.e. the empty tree,
when it has no parent or the parent cannot be loaded), and for a stash
commit with a third ("untracked files") parent, merge in that parent's own
commit diff. The Rust function recurses through the commit graph; `fuel`
bounds that recursion in the embedding (every acyclic history is handled
by a large enough fuel). -/
def get_commit_diff : Nat → DiffRepo → Oid → Option String →
    Except String (List DiffDelta)
  | 0, _, _, _ => .error "out of fuel"
  | fuel + 1, r, id, pathspec =>
    match r.findCommit id with
    | none => .error "commit not found"
    | some commit =>
      let parent : Option Tree :=
        commit.parents.head?.bind
          (fun pid => (r.findCommit pid).map (fun c => c.tree))
      let diff := diff_tree_to_tree parent (some commit.tree) pathspec
      if is_stash_commit r id then
        match commit.parents.get? 2 with
        | some untracked =>
          match get_commit_diff fuel r untracked pathspec with
          | .ok untrackedDiff => .ok (diffMerge diff untrackedDiff)
          | .error e => .error e
        | none => .ok diff
      else .ok diff

/-- The per-delta conversion inside `get_commit_files`
(`asyncgit/src/sync/commit_files.rs`): status via `From<Delta>`, path from
the delta's new side, defaulting to the empty string when the path is
missing (`unwrap_or_default`) or not valid UTF-8 (`unwrap_or("")`). -/
def deltaStatusItem (d : DiffDelta) : StatusItem :=
  { path := ((d.newFilePath.map (fun p => p.getD "")).getD "")
    status := StatusItemType.fromDelta d.status }

/-- Embedding of `get_commit_files` (`asyncgit/src/sync/commit_files.rs`):
with `other` present delegate to the two-commit comparison diff, otherwise
take the commit's own (stash-aware) diff; then convert every delta to a
`StatusItem`. -/
def get_commit_files (fuel : Nat) (r : DiffRepo) (id : Oid)
    (other : Option Oid) : Except String (List StatusItem) :=
  match
    (match other with
     | some o => get_compare_commits_diff r (id, o) none
     | none => get_commit_diff fuel r id none) with
  | .error e => .error e
  | .ok diff => .ok (diff.map deltaStatusItem)

/-- The claim's reading of the stash branch of `getCommitFiles`: the
primary diff of a stash commit is taken against the *index parent*
(second parent), and the untracked-files third parent is diffed against
*that same base*; written out only to be compared with the embedded code.
Non-stash commits are diffed against their first parent as in the code. -/
def get_commit_files_claimed (r : DiffRepo) (id : Oid) (other : Option Oid) :
    Except String (List StatusItem) :=
  match other with
  | some o =>
    match get_compare_commits_diff r (id, o) none with
    | .error e => .error e
    | .ok diff => .ok (diff.map deltaStatusItem)
  | none =>
    match r.findCommit id with
    | none => .error "commit not found"
    | some commit =>
      if is_stash_commit r id then
        let base : Option Tree :=
          (commit.parents.get? 1).bind
            (fun pid => (r.findCommit pid).map (fun c => c.tree))
        let primary := diff_tree_to_tree base (some commit.tree) none
        let merged :=
          match commit.parents.get? 2 with
          | some untracked =>
            match (r.findCommit untracked).map (fun c => Commit.tree c) with
            | some ut =>
              diffMerge primary (diff_tree_to_tree base (some ut) none)
            | none => primary
          | none => primary
        .ok (merged.map deltaStatusItem)
      else
        let parent : Option Tree :=
          commit.parents.head?.bind
            (fun pid => (r.findCommit pid).map (fun c => c.tree))
        .ok ((diff_tree_to_tree parent (some commit.tree) none).map
          deltaStatusItem)

/-! ## Fast-forward merge (`asyncgit/src/sync/branch/merge.rs`) -/

/-- The two `git2::MergeAnalysis` flags the code queries. -/
structure MergeAnalysis where
  isFastForward : Bool
  isUnborn : Bool
  deriving DecidableEq, Repr

/-- Repository state for the fast-forward merge: local branches with their
configured upstream commit (`branch.upstream()`), commit trees
(`peel_to_commit` + `checkout_tree`), the target of the reference HEAD
points to (`repo.head()`), the checked-out working tree, and the backend's
merge analysis of HEAD against a given commit
(`repo.merge_analysis`, an opaque history computation). -/
structure MergeRepo where
  branches : List (String × Option Oid)
  commits : List (Oid × Tree)
  headTarget : Option Oid
  worktree : Tree
  analysisOf : Oid → MergeAnalysis

/-- `repo.find_branch(name, Local)`: `none` = branch not found; the
payload is the branch's upstream commit, `none` = no upstream. -/
def MergeRepo.findBranch (r : MergeRepo) (name : String) :
    Option (Option Oid) :=
  (List.find? (fun e => e.1 == name) r.branches).map (fun e => e.2)

/-- Tree of a commit object, `none` when the commit cannot be loaded. -/
def MergeRepo.findCommitTree (r : MergeRepo) (id : Oid) : Option Tree :=
  (List.find? (fun e => e.1 == id) r.commits).map (fun e => e.2)

/-- Embedding of `branch_merge_upstream_fastforward`
(`asyncgit/src/sync/branch/merge.rs`): resolve the branch, its upstream
and the upstream commit; run the merge analysis; fail with a domain error
when the analysis is not fast-forward or HEAD is unborn (no state touched
yet); otherwise check out the upstream tree and set the HEAD reference's
target to the upstream commit id. The pair returns the repository state
alongside the result, making "leaves HEAD unchanged" expressible. -/
def branch_merge_upstream_fastforward (r : MergeRepo) (branch : String) :
    MergeRepo × Except String Unit :=
  match r.findBranch branch with
  | none => (r, .error "branch not found")
  | some none => (r, .error "branch has no upstream")
  | some (some upstreamOid) =>
    match r.findCommitTree upstreamOid with
    | none => (r, .error "upstream commit not found")
    | some upstreamTree =>
      let analysis := r.analysisOf upstreamOid
      if !analysis.isFastForward then
        (r, .error "fast forward merge not possible")
      else if analysis.isUnborn then
        (r, .error "head is unborn")
      else
        let r1 := { r with worktree := upstreamTree }
        match r1.headTarget with
        | none => (r1, .error "head not found")
        | some _ => ({ r1 with headTarget := some upstreamOid }, .ok ())

/-! ## The asynchronous job slot (`asyncgit/src/commit_files.rs`)

`AsyncCommitFiles` holds the cached `(params, result)` pair behind a mutex
and a pending counter behind an atomic; we model the slot state as a plain
structure and the requester/worker interactions as transitions on it. -/

/-- `CommitFilesParams` from `asyncgit/src/commit_files.rs`. -/
structure CommitFilesParams where
  id : Oid
  other : Option Oid
  deriving DecidableEq, Repr

/-- The shared state of one `AsyncCommitFiles` job slot: the last
completed `(params, result)` pair and the pending worker counter. -/
structure AsyncCommitFiles where
  current : Option (CommitFilesParams × List StatusItem)
  pending : Nat
  deriving DecidableEq, Repr

/-- `is_pending`: `pending.load() > 0`. -/
def is_pending (s : AsyncCommitFiles) : Bool := decide (0 < s.pending)

/-- Embedding of `AsyncCommitFiles::fetch` up to the spawn: when a worker
is pending, or the cached params equal the requested ones, it is a no-op
(the returned `Bool` is whether a worker was spawned, i.e. whether
`pending` was incremented and the closure submitted to the pool). -/
def fetch (s : AsyncCommitFiles) (p : CommitFilesParams) :
    AsyncCommitFiles × Bool :=
  if is_pending s then (s, false)
  else
    match s.current with
    | some c =>
      if c.1 = p then (s, false)
      else ({ s with pending := s.pending + 1 }, true)
    | none => ({ s with pending := s.pending + 1 }, true)

/-- `fetch_helper`'s store plus the worker's decrement: the whole
`(params, result)` tuple replaces `current`, then `pending` is
decremented. -/
def store_result (s : AsyncCommitFiles) (p : CommitFilesParams)
    (res : List StatusItem) : AsyncCommitFiles :=
  { current := some (p, res), pending := s.pending - 1 }

/-- How one spawned worker closure terminates: either it ran to completion
(with the updated slot state and the number of notifications it sent), or
a panic escaped the closure — under the process's rayon pool an escaped
panic aborts the whole process. -/
inductive WorkerResult where
  | completed (slot : AsyncCommitFiles) (notificationsSent : Nat)
  | processAborted (msg : String)
  deriving Repr

/-- Embedding of the worker closure spawned by `AsyncCommitFiles::fetch`:
`fetch_helper(params, current).expect("failed to fetch")`, then the
pending decrement, then `sender.send(CommitFiles).expect("error sending")`.
A provider error hits the first `expect`; a send on a torn-down channel
(`receiverAlive = false`) hits the second. -/
def worker_closure
    (provider : CommitFilesParams → Except String (List StatusItem))
    (receiverAlive : Bool) (s : AsyncCommitFiles)
    (p : CommitFilesParams) : WorkerResult :=
  match provider p with
  | .error _ => .processAborted "failed to fetch"
  | .ok res =>
    if receiverAlive then .completed (store_result s p res) 1
    else .processAborted "error sending"

/-- The transitions the slot state can undergo: a `fetch` issued by the
requester, or the store+decrement of a worker that is in flight (which
exists only while `pending > 0`). -/
inductive SlotStep : AsyncCommitFiles → AsyncCommitFiles → Prop
  | fetchStep (s : AsyncCommitFiles) (p : CommitFilesParams) :
      SlotStep s (fetch s p).1
  | completeStep (s : AsyncCommitFiles) (p : CommitFilesParams)
      (res : List StatusItem) (h : 0 < s.pending) :
      SlotStep s (store_result s p res)

/-- `AsyncCommitFiles::new`: empty cache, no pending worker. -/
def slotInit : AsyncCommitFiles := { current := none, pending := 0 }

/-- The slot states reachable from a fresh slot. -/
def slotReachable (s : AsyncCommitFiles) : Prop :=
  Relation.ReflTransGen SlotStep slotInit s

/-! ## Concrete instances used by witnesses -/

/-- A concrete total order on paths standing in for the platform comparison
in witnesses (compares lengths, then is total by construction). -/
def wLe (a b : String) : Bool := decide (a.length ≤ b.length)

/-- A bare repository (no worktree). -/
def repoBareEx : GitRepo :=
  { isBare := true, isWorktree := false, configIncludeUntracked := true
    headTree := [("f.txt", 1)], index := [("f.txt", 1)], worktree := [] }

/-- A normal repository with one modified file in the working tree. -/
def repoEx : GitRepo :=
  { isBare := false, isWorktree := false, configIncludeUntracked := true
    headTree := [("file1.txt", 1)], index := [("file1.txt", 1)]
    worktree := [("file1.txt", 2)] }

/-- A repository with one modified and one untracked file. -/
def repoEx2 : GitRepo :=
  { isBare := false, isWorktree := false, configIncludeUntracked := true
    headTree := [("file1.txt", 1)], index := [("file1.txt", 1)]
    worktree := [("file1.txt", 2), ("file2.txt", 7)] }

/-- Two distinct commits with EQUAL timestamps and different trees. -/
def repoEqTime : DiffRepo :=
  { commits :=
      [(1, { time := 100, tree := [("f", 1)], parents := [],
             isStash := false }),
       (2, { time := 100, tree := [], parents := [], isStash := false })] }

/-- Two commits with distinct timestamps and different trees. -/
def repoTimed : DiffRepo :=
  { commits :=
      [(1, { time := 100, tree := [("f", 1)], parents := [],
             isStash := false }),
       (2, { time := 200, tree := [("f", 2)], parents := [],
             isStash := false })] }

/-- A stash commit (id 10): HEAD parent 1 (empty tree), index parent 2
(tree `a ↦ 1`), untracked-files parent 3 (tree `u ↦ 1`, parentless), own
tree `a ↦ 2`. -/
def repoStash : DiffRepo :=
  { commits :=
      [(1, { time := 0, tree := [], parents := [], isStash := false }),
       (2, { time := 1, tree := [("a", 1)], parents := [1],
             isStash := false }),
       (3, { time := 2, tree := [("u", 1)], parents := [],
             isStash := false }),
       (10, { time := 3, tree := [("a", 2)], parents := [1, 2, 3],
              isStash := true })] }

/-- A repository whose branch `master` is strictly behind its upstream:
the merge analysis reports fast-forward. -/
def mergeRepoFF : MergeRepo :=
  { branches := [("master", some 5)]
    commits := [(4, [("a", 1)]), (5, [("a", 2)])]
    headTarget := some 4
    worktree := [("a", 1)]
    analysisOf := fun _ => { isFastForward := true, isUnborn := false } }

/-- A repository whose branch `master` has diverged from its upstream:
the merge analysis is not fast-forward-eligible. -/
def mergeRepoDiverged : MergeRepo :=
  { branches := [("master", some 5)]
    commits := [(4, [("a", 1)]), (5, [("a", 2)])]
    headTarget := some 4
    worktree := [("a", 1)]
    analysisOf := fun _ => { isFastForward := false, isUnborn := false } }

/-- C8: For every combination of backend-reported status flags, the derived
`StatusItemType` follows the fixed precedence
New > Deleted > Renamed > Typechange > Conflicted > Modified: the first
matching flag (checking both index and working-tree variants) wins, and
`Modified` is the fallback when no flag matches — i.e. the code's if/else
chain coincides with the spec's first-match-over-precedence-list rule. -/
theorem statusItemType_follows_precedence (s : GitStatus) :
    StatusItemType.fromStatus s = statusKindSpec s := by
  obtain ⟨a, b, c, d, e, f, g, h, i, j, k⟩ := s
  cases a <;> cases c <;> cases d <;> cases e <;> cases f <;> cases h <;>
    cases i <;> cases j <;> cases k <;> rfl

/-- The witness order `wLe` is transitive. -/
theorem wLe_trans (a b c : String) (h1 : wLe a b = true)
    (h2 : wLe b c = true) : wLe a c = true := by
  simp only [wLe, decide_eq_true_eq] at *
  exact le_trans h1 h2

/-- The witness order `wLe` is total. -/
theorem wLe_total (a b : String) : (wLe a b || wLe b a) = true := by
  simp only [wLe, Bool.or_eq_true, decide_eq_true_eq]
  exact Nat.le_total _ _

/-- C7: for every repository, scope and untracked policy, `get_status`
returns an empty sequence (not an error) on a bare repository without a
worktree, and any successful result is sorted by path under the platform
path-ordering comparison (here any transitive, total comparison `pathLe`,
standing for `Path::cmp`). -/
theorem get_status_bare_empty_and_sorted
    (pathLe : String → String → Bool)
    (htrans : ∀ a b c, pathLe a b = true → pathLe b c = true →
      pathLe a c = true)
    (htot : ∀ a b, (pathLe a b || pathLe b a) = true)
    (r : GitRepo) (t : StatusType) (su : Option Bool) :
    (r.isBare = true → r.isWorktree = false →
      get_status pathLe r t su = .ok [])
    ∧ (∀ out, get_status pathLe r t su = .ok out →
        List.Sorted (fun a b => pathLe a.path b.path = true) out) := by
  constructor
  · intro hb hw
    simp [get_status, hb, hw]
  · intro out hout
    unfold get_status at hout
    split at hout
    · injection hout with h
      subst h
      exact List.sorted_nil
    · dsimp only at hout
      split at hout
      · exact absurd hout (by simp)
      · injection hout with h
        subst h
        haveI : IsTrans StatusItem
            (fun a b => pathLe a.path b.path = true) :=
          ⟨fun a b c h1 h2 => htrans _ _ _ h1 h2⟩
        haveI : IsTotal StatusItem
            (fun a b => pathLe a.path b.path = true) :=
          ⟨fun a b => by
            have := htot a.path b.path
            rcases Bool.or_eq_true_iff.mp this with h | h
            · exact Or.inl h
            · exact Or.inr h⟩
        exact List.sorted_insertionSort _ _

/-- Witness for C7 at concrete inputs: the bare repository yields `ok []`,
and a successful status scan of a concrete repository is sorted. -/
theorem get_status_bare_empty_and_sorted_witness :
    get_status wLe repoBareEx .WorkingDir none = .ok []
    ∧ List.Sorted (fun a b : StatusItem => wLe a.path b.path = true)
        [⟨"file1.txt", .Modified⟩, ⟨"file2.txt", .New⟩] :=
  ⟨(get_status_bare_empty_and_sorted wLe wLe_trans wLe_total repoBareEx
      .WorkingDir none).1 rfl rfl,
   (get_status_bare_empty_and_sorted wLe wLe_trans wLe_total repoEx2
      .WorkingDir none).2
     [⟨"file1.txt", .Modified⟩, ⟨"file2.txt", .New⟩] rfl⟩

/-- Resetting to HEAD twice is the same as doing it once. -/
theorem resetHardToHead_idem (r : GitRepo) :
    resetHardToHead (resetHardToHead r) = resetHardToHead r := rfl

/-- The `discard_status` loop over the status entries amounts to a single
reset when any entry is working-tree modified or new, and does nothing
otherwise. -/
theorem discard_fold_eq (l : List RawStatusEntry) (acc : GitRepo) :
    l.foldl
      (fun acc e =>
        if e.status.wtModified || e.status.wtNew then resetHardToHead acc
        else acc) acc
    = if l.any (fun e => e.status.wtModified || e.status.wtNew) then
        resetHardToHead acc
      else acc := by
  induction l generalizing acc with
  | nil => simp
  | cons e l ih =>
    rw [List.foldl_cons, List.any_cons]
    cases hb : (e.status.wtModified || e.status.wtNew)
    · rw [if_neg (by simp), Bool.false_or]
      exact ih acc
    · rw [if_pos rfl, Bool.true_or, if_pos rfl,
        ih (resetHardToHead acc), resetHardToHead_idem, ite_self]

/-- After a reset to HEAD, the backend reports no working-tree entries. -/
theorem repoStatuses_workdir_after_reset (r : GitRepo) (iu : Bool) :
    repoStatuses (resetHardToHead r) .WorkingDir iu = [] := by
  unfold repoStatuses
  rw [List.filterMap_eq_nil_iff]
  intro p _
  simp only [entryFlags, resetHardToHead]
  cases hx : Tree.lookup r.headTree p <;>
    cases iu <;>
      simp [StatusType.keeps, hasWtChange, hx]

/-- C6: whenever the status scan reports at least one working-tree
modified or new entry, `discard_status` resets the whole working tree and
index to HEAD, returns `true`, and a subsequent `getStatus(WorkingDir)`
returns an empty sequence. -/
theorem discard_status_clears_workdir
    (pathLe : String → String → Bool) (r : GitRepo) (su : Option Bool)
    (hmn : (repoStatuses r .Both true).any
      (fun e => e.status.wtModified || e.status.wtNew) = true) :
    (discard_status r).1 = resetHardToHead r
    ∧ (discard_status r).2 = true
    ∧ get_status pathLe (discard_status r).1 .WorkingDir su = .ok [] := by
  have hfst : (discard_status r).1 = resetHardToHead r := by
    unfold discard_status
    dsimp only
    rw [discard_fold_eq, if_pos hmn]
  refine ⟨hfst, rfl, ?_⟩
  rw [hfst]
  unfold get_status
  split
  · rfl
  · simp only [repoStatuses_workdir_after_reset]
    rfl

/-- Witness for C6: a repository with a modified and an untracked file is
cleared by `discard_status`. -/
theorem discard_status_clears_workdir_witness :
    (discard_status repoEx2).1 = resetHardToHead repoEx2
    ∧ (discard_status repoEx2).2 = true
    ∧ get_status wLe (discard_status repoEx2).1 .WorkingDir none = .ok [] :=
  discard_status_clears_workdir wLe repoEx2 none (by decide)

/-- C3 counterexample: two distinct commits with equal timestamps are NOT
reordered, so `compareCommits(repo, (A, B))` and
`compareCommits(repo, (B, A))` produce opposite diffs (here: the same file
reported deleted in one direction and added in the other), refuting the
claim for every pair of distinct commits. -/
theorem compare_commits_equal_time_order_dependent :
    get_compare_commits_diff repoEqTime (1, 2) none
      = .ok [⟨.Deleted, some (some "f")⟩]
    ∧ get_compare_commits_diff repoEqTime (2, 1) none
      = .ok [⟨.Added, some (some "f")⟩]
    ∧ get_compare_commits_diff repoEqTime (1, 2) none
      ≠ get_compare_commits_diff repoEqTime (2, 1) none := by
  refine ⟨rfl, rfl, fun h => ?_⟩
  have h1 : get_compare_commits_diff repoEqTime (1, 2) none
      = .ok [⟨.Deleted, some (some "f")⟩] := rfl
  have h2 : get_compare_commits_diff repoEqTime (2, 1) none
      = .ok [⟨.Added, some (some "f")⟩] := rfl
  rw [h1, h2] at h
  simp at h

/-- C3 (amended): for commits with DISTINCT timestamps, `compareCommits`
reorders them so the chronologically earlier commit is the diff base and
the later one the target, hence the comparison is order-invariant; for
equal timestamps the argument order is kept (see the counterexample). -/
theorem compare_commits_time_normalized (r : DiffRepo) (A B : Oid)
    (cA cB : Commit) (hA : r.findCommit A = some cA)
    (hB : r.findCommit B = some cB) (ps : Option String)
    (hne : cA.time ≠ cB.time) :
    get_compare_commits_diff r (A, B) ps
      = get_compare_commits_diff r (B, A) ps
    ∧ get_compare_commits_diff r (A, B) ps
      = .ok (if cA.time < cB.time then
          diff_tree_to_tree (some cA.tree) (some cB.tree) ps
        else
          diff_tree_to_tree (some cB.tree) (some cA.tree) ps) := by
  unfold get_compare_commits_diff
  rw [hA, hB]
  dsimp only
  rcases lt_or_gt_of_ne hne with h | h
  · rw [if_neg (by rw [compare_gt_iff_gt]; exact not_lt_of_lt h),
      if_pos (by rw [compare_gt_iff_gt]; exact h), if_pos h]
    exact ⟨rfl, rfl⟩
  · rw [if_pos (by rw [compare_gt_iff_gt]; exact h),
      if_neg (by rw [compare_gt_iff_gt]; exact not_lt_of_lt h),
      if_neg (not_lt_of_lt h)]
    exact ⟨rfl, rfl⟩

/-- Witness for the amended C3 at concrete commits with distinct
timestamps: both argument orders give the same diff, based at the earlier
commit's tree. -/
theorem compare_commits_time_normalized_witness :
    get_compare_commits_diff repoTimed (1, 2) none
      = get_compare_commits_diff repoTimed (2, 1) none
    ∧ get_compare_commits_diff repoTimed (1, 2) none
      = .ok (diff_tree_to_tree (some [("f", 1)]) (some [("f", 2)]) none) :=
  have h := compare_commits_time_normalized repoTimed 1 2
    { time := 100, tree := [("f", 1)], parents := [], isStash := false }
    { time := 200, tree := [("f", 2)], parents := [], isStash := false }
    rfl rfl none (by decide)
  ⟨h.1, by simpa using h.2⟩

/-- C4 counterexample: on a concrete stash commit the code's result (diff
against the FIRST parent, i.e. the HEAD parent) differs from the claim's
reading (diff against the index parent, untracked parent diffed against
that same base): the staged file `a` comes out `New` in the code and
`Modified` under the claim. -/
theorem commit_files_stash_base_counterexample :
    get_commit_files 2 repoStash 10 none
      = .ok [⟨"a", .New⟩, ⟨"u", .New⟩]
    ∧ get_commit_files_claimed repoStash 10 none
      = .ok [⟨"a", .Modified⟩, ⟨"u", .New⟩]
    ∧ get_commit_files 2 repoStash 10 none
      ≠ get_commit_files_claimed repoStash 10 none := by
  refine ⟨rfl, rfl, fun h => ?_⟩
  have h1 : get_commit_files 2 repoStash 10 none
      = .ok [⟨"a", .New⟩, ⟨"u", .New⟩] := rfl
  have h2 : get_commit_files_claimed repoStash 10 none
      = .ok [⟨"a", .Modified⟩, ⟨"u", .New⟩] := rfl
  rw [h1, h2] at h
  simp at h

/-- C4 (amended): `getCommitFiles` delegates to the two-commit comparison
when `otherCommitId` is given; otherwise it diffs the commit against its
FIRST parent (the HEAD parent for a stash; no parent means diff against
the empty tree), and for a stash commit with a third (untracked-files)
parent it merges in that parent's own first-parent commit diff, yielding a
single flat file list. -/
theorem get_commit_files_characterized (fuel : Nat) (r : DiffRepo)
    (id : Oid) :
    (∀ o, get_commit_files fuel r id (some o)
      = match get_compare_commits_diff r (id, o) none with
        | .error e => .error e
        | .ok diff => .ok (diff.map deltaStatusItem))
    ∧ (∀ c, r.findCommit id = some c → c.isStash = false →
        get_commit_files (fuel + 1) r id none
          = .ok ((diff_tree_to_tree
              (c.parents.head?.bind
                (fun pid => (r.findCommit pid).map (fun cp => cp.tree)))
              (some c.tree) none).map deltaStatusItem))
    ∧ (∀ c u ud, r.findCommit id = some c → c.isStash = true →
        c.parents.get? 2 = some u →
        get_commit_diff fuel r u none = .ok ud →
        get_commit_files (fuel + 1) r id none
          = .ok ((diffMerge
              (diff_tree_to_tree
                (c.parents.head?.bind
                  (fun pid => (r.findCommit pid).map (fun cp => cp.tree)))
                (some c.tree) none) ud).map deltaStatusItem)) := by
  refine ⟨fun o => rfl, fun c hc hns => ?_, fun c u ud hc hst hu hud => ?_⟩
  · unfold get_commit_files get_commit_diff
    rw [hc]
    dsimp only
    rw [if_neg (by simp [is_stash_commit, hc, hns])]
  · unfold get_commit_files get_commit_diff
    rw [hc]
    dsimp only
    rw [if_pos (by simp [is_stash_commit, hc, hst]), hu]
    dsimp only
    rw [hud]

/-- Witness for the amended C4 at the concrete stash repository: the
delegation case, the plain-commit case, and the stash-merge case. -/
theorem get_commit_files_characterized_witness :
    get_commit_files 1 repoStash 2 (some 10) = .ok [⟨"a", .Modified⟩]
    ∧ get_commit_files 2 repoStash 2 none = .ok [⟨"a", .New⟩]
    ∧ get_commit_files 2 repoStash 10 none
      = .ok [⟨"a", .New⟩, ⟨"u", .New⟩] :=
  ⟨((get_commit_files_characterized 1 repoStash 2).1 10).trans rfl,
   ((get_commit_files_characterized 1 repoStash 2).2.1
      { time := 1, tree := [("a", 1)], parents := [1], isStash := false }
      rfl rfl).trans rfl,
   ((get_commit_files_characterized 1 repoStash 10).2.2
      { time := 3, tree := [("a", 2)], parents := [1, 2, 3],
        isStash := true }
      3 [⟨.Added, some (some "u")⟩] rfl rfl rfl rfl).trans rfl⟩

/-- C10: the delta-to-entry conversion of `get_commit_files` is total:
whenever the underlying diff succeeds, every delta is turned into exactly
one `StatusItem` (no error is ever produced by path handling), and a delta
whose new side has no path, or a non-UTF-8 path, still yields an entry
whose path is the empty string. -/
theorem get_commit_files_path_fallback (fuel : Nat) (r : DiffRepo)
    (id : Oid) (other : Option Oid) :
    (∀ diff : List DiffDelta,
      ((match other with
        | some o => get_compare_commits_diff r (id, o) none
        | none => get_commit_diff fuel r id none) :
          Except String (List DiffDelta)) = .ok diff →
      get_commit_files fuel r id other = .ok (diff.map deltaStatusItem))
    ∧ (∀ d : DiffDelta, d.newFilePath = none ∨ d.newFilePath = some none →
        deltaStatusItem d = ⟨"", StatusItemType.fromDelta d.status⟩) := by
  constructor
  · intro diff h
    unfold get_commit_files
    rw [h]
  · rintro d (h | h) <;> simp [deltaStatusItem, h]

/-- Witness for C10: a successful two-commit diff produces one entry per
delta, and deltas with a missing or non-UTF-8 new-side path produce
empty-string paths. -/
theorem get_commit_files_path_fallback_witness :
    get_commit_files 1 repoTimed 1 (some 2)
      = .ok ([⟨.Modified, some (some "f")⟩].map deltaStatusItem)
    ∧ deltaStatusItem ⟨.Added, some none⟩
      = ⟨"", StatusItemType.fromDelta .Added⟩
    ∧ deltaStatusItem ⟨.Deleted, none⟩
      = ⟨"", StatusItemType.fromDelta .Deleted⟩ :=
  ⟨(get_commit_files_path_fallback 1 repoTimed 1 (some 2)).1
      [⟨.Modified, some (some "f")⟩] rfl,
   (get_commit_files_path_fallback 1 repoTimed 1 (some 2)).2
      ⟨.Added, some none⟩ (Or.inr rfl),
   (get_commit_files_path_fallback 1 repoTimed 1 none).2
      ⟨.Deleted, none⟩ (Or.inl rfl)⟩

/-- C5: `mergeUpstreamFastForward` fails with a domain error whenever the
merge analysis of HEAD against the upstream commit is not
fast-forward-eligible or HEAD is unborn, leaving the repository (in
particular HEAD) unchanged; on success the working tree becomes the
upstream commit's tree and the HEAD reference's target becomes the
upstream commit id, so local HEAD equals upstream HEAD. -/
theorem branch_merge_upstream_fastforward_spec (r : MergeRepo)
    (branch : String) (upstreamOid : Oid) (upstreamTree : Tree)
    (hb : r.findBranch branch = some (some upstreamOid))
    (hct : r.findCommitTree upstreamOid = some upstreamTree) :
    (((r.analysisOf upstreamOid).isFastForward = false
        ∨ (r.analysisOf upstreamOid).isUnborn = true) →
      branch_merge_upstream_fastforward r branch
        = (r, .error (if (r.analysisOf upstreamOid).isFastForward then
            "head is unborn" else "fast forward merge not possible")))
    ∧ ((branch_merge_upstream_fastforward r branch).2 = .ok () →
        (r.analysisOf upstreamOid).isFastForward = true
        ∧ (r.analysisOf upstreamOid).isUnborn = false
        ∧ (branch_merge_upstream_fastforward r branch).1.worktree
            = upstreamTree
        ∧ (branch_merge_upstream_fastforward r branch).1.headTarget
            = some upstreamOid) := by
  unfold branch_merge_upstream_fastforward
  rw [hb]
  dsimp only
  rw [hct]
  dsimp only
  constructor
  · intro hfail
    cases hf : (r.analysisOf upstreamOid).isFastForward with
    | false => rfl
    | true =>
      have hub : (r.analysisOf upstreamOid).isUnborn = true := by
        rcases hfail with h | h
        · rw [hf] at h; exact absurd h (by simp)
        · exact h
      rw [hub]
      rfl
  · intro hok
    cases hf : (r.analysisOf upstreamOid).isFastForward with
    | false =>
      rw [hf] at hok
      simp at hok
    | true =>
      rw [hf] at hok
      cases hub : (r.analysisOf upstreamOid).isUnborn with
      | true =>
        rw [hub] at hok
        simp at hok
      | false =>
        rw [hub] at hok
        cases hh : r.headTarget with
        | none =>
          rw [hh] at hok
          simp at hok
        | some tgt =>
          exact ⟨rfl, rfl, rfl, rfl⟩

/-- Witness for C5: on the diverged repository the merge fails and leaves
the state unchanged; on the strictly-behind repository it succeeds, checks
out the upstream tree and points HEAD's branch at the upstream commit. -/
theorem branch_merge_upstream_fastforward_spec_witness :
    branch_merge_upstream_fastforward mergeRepoDiverged "master"
      = (mergeRepoDiverged, .error "fast forward merge not possible")
    ∧ (mergeRepoFF.analysisOf 5).isFastForward = true
    ∧ (mergeRepoFF.analysisOf 5).isUnborn = false
    ∧ (branch_merge_upstream_fastforward mergeRepoFF "master").1.worktree
        = [("a", 2)]
    ∧ (branch_merge_upstream_fastforward mergeRepoFF "master").1.headTarget
        = some 5 :=
  ⟨((branch_merge_upstream_fastforward_spec mergeRepoDiverged "master" 5
      [("a", 2)] rfl rfl).1 (Or.inl rfl)).trans rfl,
   (branch_merge_upstream_fastforward_spec mergeRepoFF "master" 5
      [("a", 2)] rfl rfl).2 rfl⟩

/-- `fetch` leaves `pending` unchanged when it skips, and bumps it from
zero to one when it spawns. -/
theorem fetch_cases (s : AsyncCommitFiles) (p : CommitFilesParams) :
    (fetch s p = (s, false))
    ∨ (s.pending = 0
        ∧ fetch s p = ({ s with pending := s.pending + 1 }, true)) := by
  unfold fetch
  split
  · exact Or.inl rfl
  next hnp =>
    have h0 : s.pending = 0 := by
      by_contra hne
      exact hnp (by simpa [is_pending] using Nat.pos_of_ne_zero hne)
    split
    · split
      · exact Or.inl rfl
      · exact Or.inr ⟨h0, rfl⟩
    · exact Or.inr ⟨h0, rfl⟩

/-- C1: `fetch` is a no-op returning success while a worker is pending or
when the cached params equal the request; a second identical `fetch`
issued before the first completes spawns no second worker, and the one
spawned worker sends exactly one notification; and on every reachable slot
state the pending count is 0 or 1 (no second worker in flight). -/
theorem fetch_single_flight
    (provider : CommitFilesParams → List StatusItem)
    (s : AsyncCommitFiles) (p : CommitFilesParams) :
    (is_pending s = true → fetch s p = (s, false))
    ∧ (∀ c, s.current = some c → c.1 = p → fetch s p = (s, false))
    ∧ ((fetch s p).2 = true →
        (fetch (fetch s p).1 p).2 = false
        ∧ worker_closure (fun q => .ok (provider q)) true (fetch s p).1 p
            = .completed (store_result (fetch s p).1 p (provider p)) 1)
    ∧ (∀ s2, slotReachable s2 → s2.pending ≤ 1) := by
  refine ⟨?_, ?_, ?_, ?_⟩
  · intro hp
    unfold fetch
    rw [if_pos hp]
  · intro c hc hcp
    unfold fetch
    split
    · rfl
    · rw [hc]
      dsimp only
      rw [if_pos hcp]
  · intro hsp
    rcases fetch_cases s p with h | ⟨h0, h⟩
    · rw [h] at hsp
      exact absurd hsp (by simp)
    · rw [h]
      constructor
      · unfold fetch
        rw [if_pos (by simp [is_pending])]
      · rfl
  · intro s2 hreach
    induction hreach with
    | refl => decide
    | @tail b c hsteps hstep ih =>
      cases hstep with
      | fetchStep q =>
        rcases fetch_cases b q with h | ⟨h0, h⟩
        · rw [h]; exact ih
        · rw [h]; simp [h0]
      | completeStep q res hq =>
        exact le_trans (Nat.sub_le _ _) ih

/-- Witness for C1 at concrete slot states: a pending slot drops the
request, a cached identical request is dropped, a double fetch from a
fresh slot spawns only once with one notification, and a reachable state
has pending at most 1. -/
theorem fetch_single_flight_witness :
    fetch { current := none, pending := 1 } ⟨1, none⟩
      = ({ current := none, pending := 1 }, false)
    ∧ fetch { current := some (⟨1, none⟩, []), pending := 0 } ⟨1, none⟩
      = ({ current := some (⟨1, none⟩, []), pending := 0 }, false)
    ∧ (fetch (fetch slotInit ⟨1, none⟩).1 ⟨1, none⟩).2 = false
    ∧ worker_closure (fun _ => .ok []) true (fetch slotInit ⟨1, none⟩).1
        ⟨1, none⟩
      = .completed (store_result (fetch slotInit ⟨1, none⟩).1 ⟨1, none⟩ []) 1
    ∧ (fetch slotInit ⟨1, none⟩).1.pending ≤ 1 :=
  ⟨(fetch_single_flight (fun _ => []) { current := none, pending := 1 }
      ⟨1, none⟩).1 rfl,
   (fetch_single_flight (fun _ => [])
      { current := some (⟨1, none⟩, []), pending := 0 } ⟨1, none⟩).2.1
      (⟨1, none⟩, []) rfl rfl,
   ((fetch_single_flight (fun _ => []) slotInit ⟨1, none⟩).2.2.1 rfl).1,
   ((fetch_single_flight (fun _ => []) slotInit ⟨1, none⟩).2.2.1 rfl).2,
   (fetch_single_flight (fun _ => []) slotInit ⟨1, none⟩).2.2.2
     (fetch slotInit ⟨1, none⟩).1
     (Relation.ReflTransGen.single (SlotStep.fetchStep slotInit ⟨1, none⟩))⟩

/-- C2 (evaluating the code at the failing input): when the provider call
of a background fetch fails, the worker closure hits
`.expect("failed to fetch")` and the process aborts — no failure event is
emitted and stale state handling never happens, contradicting the required
contract. -/
theorem worker_aborts_on_provider_error :
    worker_closure (fun _ => .error "object not found") true
      { current := none, pending := 1 } ⟨1, none⟩
      = .processAborted "failed to fetch" := rfl

/-- C9 counterexample: with the consuming end torn down, the worker's send
hits `.expect("error sending")` and panics (aborting the process) instead
of discarding the send and exiting normally. -/
theorem worker_send_torn_down_counterexample :
    worker_closure (fun _ => .ok []) false { current := none, pending := 1 }
      ⟨1, none⟩
      = .processAborted "error sending"
    ∧ worker_closure (fun _ => .ok []) false { current := none, pending := 1 }
      ⟨1, none⟩
      ≠ .completed
          (store_result { current := none, pending := 1 } ⟨1, none⟩ []) 0 :=
  ⟨rfl, fun h => WorkerResult.noConfusion h⟩

/-- C9 (amended): the completion send is `.expect`ed: with a live consumer
the worker completes normally having sent exactly one notification; with a
torn-down consumer the failed send panics the worker and aborts the
process — a failed send IS fatal. -/
theorem worker_send_spec
    (provider : CommitFilesParams → Except String (List StatusItem))
    (s : AsyncCommitFiles) (p : CommitFilesParams)
    (res : List StatusItem) (hp : provider p = .ok res) :
    worker_closure provider true s p = .completed (store_result s p res) 1
    ∧ worker_closure provider false s p
      = .processAborted "error sending" := by
  unfold worker_closure
  rw [hp]
  exact ⟨rfl, rfl⟩

/-- Witness for the amended C9 at a concrete slot and provider. -/
theorem worker_send_spec_witness :
    worker_closure (fun _ => .ok []) true { current := none, pending := 1 }
      ⟨1, none⟩
      = .completed
          (store_result { current := none, pending := 1 } ⟨1, none⟩ []) 1
    ∧ worker_closure (fun _ => .ok []) false { current := none, pending := 1 }
      ⟨1, none⟩
      = .processAborted "error sending" :=
  worker_send_spec (fun _ => .ok []) { current := none, pending := 1 }
    ⟨1, none⟩ [] rfl

end Gitui
